import Mathlib

/-!
Verification of the plex-poster-exporter core (src/plex-poster-exporter.py)
against its specification.  The script's path arithmetic, staleness
evaluation, download/sync engine, path resolver and traversal driver are
shallowly embedded below; timestamps are integers (seconds), the filesystem
is an explicit map from file paths to modification times plus a set of
known directories, and the network transfer primitive is an oracle
parameter distinguishing success, generic failure, a remote not-found
condition and an arbitrary exception, exactly as the script's
`try/except NotFound/except Exception` does.
-/

namespace PPE

/-! ## POSIX path primitives, translated from CPython's posixpath
    (`os.path.dirname`, `os.path.basename`, `os.path.splitext`,
    `os.path.join`) and `str.lstrip('/')`, as used by the script. -/

/-- Python `s.lstrip('/')`: drop every leading `'/'` character. -/
def lstripSlash (s : String) : String :=
  String.mk (s.data.dropWhile (fun c => c == '/'))

/-- Drop every trailing `'/'` character (Python `rstrip('/')`). -/
def rstripSlashL (l : List Char) : List Char :=
  (l.reverse.dropWhile (fun c => c == '/')).reverse

/-- Split a character list at the last `'/'`: the first component keeps the
    trailing slash, the second is everything after it (CPython
    `posixpath.split` before the head normalisation). -/
def splitLast (p : List Char) : List Char × List Char :=
  ((p.reverse.dropWhile (fun c => c != '/')).reverse,
   (p.reverse.takeWhile (fun c => c != '/')).reverse)

/-- Does the list consist only of `'/'` characters? -/
def allSlashes (l : List Char) : Bool :=
  l.all (fun c => c == '/')

/-- CPython `posixpath.dirname` on the character list: head of the split,
    right-stripped of slashes unless empty or made only of slashes. -/
def dirnameL (p : List Char) : List Char :=
  let head := (splitLast p).1
  if head.isEmpty then head
  else if allSlashes head then head
  else rstripSlashL head

/-- `os.path.dirname` for POSIX paths. -/
def dirname (s : String) : String :=
  String.mk (dirnameL s.data)

/-- `os.path.basename` for POSIX paths. -/
def basename (s : String) : String :=
  String.mk ((splitLast s.data).2)

/-- First component of CPython `posixpath.splitext` for a name containing no
    `'/'` (the script only applies it to `os.path.basename(...)` output):
    cut at the last dot when some character before that dot is not a dot,
    otherwise return the name unchanged. -/
def splitextRootL (b : List Char) : List Char :=
  match b.reverse.dropWhile (fun c => c != '.') with
  | [] => b
  | _ :: rootRev => if rootRev.any (fun c => c != '.') then rootRev.reverse else b

/-- `os.path.splitext(s)[0]` for a slash-free name. -/
def splitextRoot (s : String) : String :=
  String.mk (splitextRootL s.data)

/-- Does the string start with `'/'`? -/
def startsWithSlash (s : String) : Bool :=
  match s.data with
  | [] => false
  | c :: _ => c == '/'

/-- Does the string end with `'/'`? -/
def endsWithSlash (s : String) : Bool :=
  match s.data.reverse with
  | [] => false
  | c :: _ => c == '/'

/-- CPython `posixpath.join` restricted to two arguments, as in
    `os.path.join(self.output_path, path)` and
    `os.path.join(abs_path, filename)`. -/
def joinPath (a b : String) : String :=
  if startsWithSlash b then b
  else if a = "" then a ++ b
  else if endsWithSlash a then a ++ b
  else a ++ "/" ++ b

/-! ## Staleness evaluator (script lines 105–121, the SMART SYNC LOGIC) -/

/-- The `should_download` decision of `Plex.download`: `localMtime = none`
    means the destination file does not exist (`os.path.isfile` is false),
    in which case the initial `should_download = True` stands; otherwise the
    force flag, then the presence of `source_updated_at`, then the 60-second
    clock-drift buffer comparison decide. -/
def shouldDownload (force : Bool) (sourceTs : Option Int) (localMtime : Option Int) : Bool :=
  match localMtime with
  | none => true
  | some m =>
    if force then true
    else
      match sourceTs with
      | some ts => decide (ts > m + 60)
      | none => false

/-! ## Filesystem and transfer model -/

/-- Local filesystem state: files with their last-modified time (seconds),
    and the set of directories known to exist. -/
structure FS where
  files : List (String × Int)
  dirs : List String
deriving DecidableEq

/-- `os.path.getmtime` / `os.path.isfile` combined: the recorded
    modification time of a file, `none` when the file does not exist. -/
def FS.mtime (fs : FS) (p : String) : Option Int :=
  (fs.files.find? (fun kv => kv.1 == p)).map (fun kv => kv.2)

/-- Writing a file records its path with the given modification time
    (a later write shadows an earlier one). -/
def FS.write (fs : FS) (p : String) (t : Int) : FS :=
  { fs with files := (p, t) :: fs.files }

/-- `os.path.exists` on a directory. -/
def FS.dirExists (fs : FS) (d : String) : Bool :=
  fs.dirs.contains d

/-- `os.makedirs` (errors swallowed by the script, so modelled as always
    succeeding). -/
def FS.mkdirs (fs : FS) (d : String) : FS :=
  { fs with dirs := d :: fs.dirs }

/-- Result of one call to the transfer primitive
    (`plexapi.utils.download`): truthy return, falsy return, `NotFound`
    exception, or any other exception. -/
inductive TransferResult
  | success
  | genericFail
  | notFound
  | err (msg : String)
deriving DecidableEq

/-- Per-attempt outcome of `Plex.download`. -/
inductive Outcome
  | noUrl
  | skippedCurrent
  | downloadedOk
  | failedGeneric
  | failedNotFound
  | failedErr
deriving DecidableEq

/-- Observable filesystem / network operations performed by one
    `Plex.download` call. -/
inductive Effect
  | mkdirs (d : String)
  | transferOp (url : String) (savepath : String) (filename : String)
  | writeFile (p : String)
deriving DecidableEq

/-- Is the effect a network transfer? -/
def Effect.isTransfer : Effect → Bool
  | .transferOp _ _ _ => true
  | _ => false

/-- Log lines printed by the script (colour escape codes omitted); each
    constructor corresponds to one `print` site, `render` gives its text. -/
inductive LogMsg
  | skippedCur (path : String)
  | downloadedMsg (path : String)
  | genericFail (path : String)
  | notFound (filename : String)
  | errMsg (e : String)
  | itemErr (title : String) (e : String)
deriving DecidableEq

/-- The literal message text of each `print` site. -/
def LogMsg.render : LogMsg → String
  | .skippedCur p => "SKIPPED (Current): " ++ p
  | .downloadedMsg p => "DOWNLOADED: " ++ p
  | .genericFail p => "DOWNLOAD FAILED (Generic): " ++ p
  | .notFound f => "NOT FOUND (404): Plex cannot find the asset file for " ++ f ++ "."
  | .errMsg e => "ERROR: " ++ e
  | .itemErr t e => "ERROR Processing " ++ t ++ ": " ++ e

/-- One asset sync request: the arguments of a `Plex.download` call.
    `url = none` models Python `None`, `some ""` an empty reference; both
    are falsy for the `if not url` guard. -/
structure AssetReq where
  url : Option String
  filename : String
  path : String
  sourceTs : Option Int
deriving DecidableEq

/-- Python truthiness of the `url` argument. -/
def urlTruthy : Option String → Bool
  | none => false
  | some u => decide (u ≠ "")

/-- Run-scoped mutable state of the `Plex` object: the filesystem plus the
    `downloaded` and `skipped` counters. -/
structure DlState where
  fs : FS
  downloaded : Nat
  skipped : Nat
deriving DecidableEq

/-- Result of one `Plex.download` call: the new state, the per-attempt
    outcome, the computed destination directory (`abs_path`, `none` when the
    call returned at the `if not url` guard), the effects performed and the
    log lines printed. -/
structure DResult where
  state : DlState
  outcome : Outcome
  absDir : Option String
  effects : List Effect
  log : List LogMsg
deriving DecidableEq

/-- The `abs_path` computation of `Plex.download` (script lines 92–96):
    the literal output path `"/"` selects the no-override mode, anything
    else joins the output path with the left-stripped source directory. -/
def absPath (outputPath path : String) : String :=
  if outputPath = "/" then path
  else joinPath outputPath (lstripSlash path)

/-- Default of the `--output-path` option (script line 149). -/
def defaultOutputPath : String := "/"

/-- `final_file_path` of `Plex.download` (script line 104). -/
def finalPath (outputPath : String) (r : AssetReq) : String :=
  joinPath (absPath outputPath r.path) r.filename

/-- `full_url` of `Plex.download` (script line 130). -/
def fullUrlOf (baseurl : String) (r : AssetReq) : String :=
  baseurl ++ r.url.getD ""

/-- `Plex.download` (script lines 88–140): the `if not url` guard, the
    output-path resolution, best-effort directory creation, the
    `should_download` decision against the destination's mtime, and the
    transfer attempt with its three failure modes.  `writeTime` is the
    modification time the filesystem records for a successful download. -/
def download (baseurl outputPath : String) (force : Bool)
    (transfer : String → TransferResult) (writeTime : Int)
    (st : DlState) (r : AssetReq) : DResult :=
  if urlTruthy r.url then
    let ap := absPath outputPath r.path
    let eff1 : List Effect := if st.fs.dirExists ap then [] else [Effect.mkdirs ap]
    let fs1 := if st.fs.dirExists ap then st.fs else st.fs.mkdirs ap
    let final := finalPath outputPath r
    if shouldDownload force r.sourceTs (st.fs.mtime final) then
      match transfer (fullUrlOf baseurl r) with
      | .success =>
          ⟨⟨fs1.write final writeTime, st.downloaded + 1, st.skipped⟩, .downloadedOk,
            some ap, eff1 ++ [.transferOp (fullUrlOf baseurl r) ap r.filename, .writeFile final],
            [.downloadedMsg final]⟩
      | .genericFail =>
          ⟨⟨fs1, st.downloaded, st.skipped⟩, .failedGeneric,
            some ap, eff1 ++ [.transferOp (fullUrlOf baseurl r) ap r.filename],
            [.genericFail final]⟩
      | .notFound =>
          ⟨⟨fs1, st.downloaded, st.skipped⟩, .failedNotFound,
            some ap, eff1 ++ [.transferOp (fullUrlOf baseurl r) ap r.filename],
            [.notFound r.filename]⟩
      | .err e =>
          ⟨⟨fs1, st.downloaded, st.skipped⟩, .failedErr,
            some ap, eff1 ++ [.transferOp (fullUrlOf baseurl r) ap r.filename],
            [.errMsg e]⟩
    else
      ⟨⟨fs1, st.downloaded, st.skipped + 1⟩, .skippedCurrent, some ap, eff1, [.skippedCur final]⟩
  else ⟨st, .noUrl, none, [], []⟩

/-- Sequential processing of a list of sync requests, threading the run
    state as the script's loops do; `wt` gives the modification time a
    download performed after `n` previous downloads stamps on the file. -/
def runAssets (b o : String) (force : Bool) (t : String → TransferResult) (wt : Nat → Int) :
    DlState → List AssetReq → DlState × List Outcome
  | st, [] => (st, [])
  | st, r :: rest =>
    let res := download b o force t (wt st.downloaded) st r
    let next := runAssets b o force t wt res.state rest
    (next.1, res.outcome :: next.2)

/-! ## Path resolver (`Plex.getPath`, script lines 75–86) and the
    episode-thumbnail traversal of `main` (script lines 204–215) -/

/-- One media file part with its absolute source path. -/
structure Part where
  file : String
deriving DecidableEq

/-- One media version: an ordered list of file parts. -/
structure Media where
  parts : List Part
deriving DecidableEq

/-- An episode as the traversal sees it: thumbnail reference (`""` models a
    missing or falsy `thumb` attribute), optional `updatedAt`, media
    versions. -/
structure Episode where
  thumb : String
  updatedAt : Option Int
  media : List Media
deriving DecidableEq

/-- The movie branch of `Plex.getPath`: `for media: for part: return
    os.path.dirname(part.file)`. -/
def moviePathLoop : List Media → Option String
  | [] => none
  | m :: rest =>
    match m.parts with
    | [] => moviePathLoop rest
    | p :: _ => some (dirname p.file)

/-- The innermost loop of the show branch of `Plex.getPath`: the first part
    returns the season directory (`dirname`) or the show directory
    (`dirname` twice) according to the `season` flag. -/
def showPartsLoop (season : Bool) : List Part → Option String
  | [] => none
  | p :: _ => some (if season then dirname p.file else dirname (dirname p.file))

/-- The `for media in episode.media` loop of the show branch. -/
def showMediaLoop (season : Bool) : List Media → Option String
  | [] => none
  | m :: rest =>
    match showPartsLoop season m.parts with
    | some d => some d
    | none => showMediaLoop season rest

/-- The `for episode in item.episodes()` loop of the show branch. -/
def showEpisodeLoop (season : Bool) : List Episode → Option String
  | [] => none
  | e :: rest =>
    match showMediaLoop season e.media with
    | some d => some d
    | none => showEpisodeLoop season rest

/-- `Plex.getPath` (script lines 75–86): dispatch on the library type, then
    the nested loops returning at the first media part found; falling off
    the end returns Python `None`. -/
def getPath (libType : String) (itemMedia : List Media) (episodes : List Episode)
    (season : Bool) : Option String :=
  if libType = "movie" then moviePathLoop itemMedia
  else if libType = "show" then showEpisodeLoop season episodes
  else none

/-- The first media part of an episode in the order the loops visit them
    (first part of the first media version that has one). -/
def firstPartIn : List Media → Option Part
  | [] => none
  | m :: rest =>
    match m.parts with
    | [] => firstPartIn rest
    | p :: _ => some p

/-- First media part of an episode. -/
def firstEpisodePart (e : Episode) : Option Part :=
  firstPartIn e.media

/-- `thumb_name` computed by `main` (script lines 211–212). -/
def thumbName (f : String) : String :=
  splitextRoot (basename f) ++ "-thumb.jpg"

/-- `episode_updated` (script line 205): the episode's own `updatedAt` when
    the attribute is present, else the season's value. -/
def episodeTs (ep : Episode) (seasonTs : Option Int) : Option Int :=
  match ep.updatedAt with
  | some t => some t
  | none => seasonTs

/-- The `for media in episode.media: for part in media.parts` loop of
    `main` (script lines 208–215): the first part of a media version
    triggers a `plex.download` call and the `break` leaves the inner parts
    loop; the outer loop proceeds with the next media version. -/
def episodeThumbMediaLoop (thumb : String) (ts : Option Int) : List Media → List AssetReq
  | [] => []
  | m :: rest =>
    (match m.parts with
     | [] => []
     | p :: _ => [⟨some thumb, thumbName p.file, dirname p.file, ts⟩])
    ++ episodeThumbMediaLoop thumb ts rest

/-- The `plex.download` calls a single episode's thumbnail handling issues
    (script lines 207–215), guarded by the asset filter and a truthy
    `episode.thumb`. -/
def episodeThumbCalls (assets : String) (ep : Episode) (seasonTs : Option Int) : List AssetReq :=
  if (assets = "all" ∨ assets = "posters") ∧ ep.thumb ≠ "" then
    episodeThumbMediaLoop ep.thumb (episodeTs ep seasonTs) ep.media
  else []

/-! ## Traversal driver (`main`, script lines 163–218) -/

/-- A top-level library item as the driver's error isolation sees it. -/
structure LibItem where
  title : String
deriving DecidableEq

/-- The per-item loop of `main`: `item.reload()` failure skips the item
    silently; the item body (`proc`, abstracting lines 174–216) either
    yields the downloaded/skipped deltas it contributed or raises, in which
    case the `except` at the item boundary logs the title with the error
    and the loop continues.  Returns total downloaded, total skipped and
    the log lines in order. -/
def runItems (reloadOk : LibItem → Bool) (proc : LibItem → Except String (Nat × Nat)) :
    List LibItem → Nat × Nat × List LogMsg
  | [] => (0, 0, [])
  | it :: rest =>
    let r := runItems reloadOk proc rest
    if reloadOk it then
      match proc it with
      | .ok ds => (ds.1 + r.1, ds.2 + r.2.1, r.2.2)
      | .error e => (r.1, r.2.1, .itemErr it.title e :: r.2.2)
    else r

/-! ## Concrete instances used by witnesses and counterexamples -/

/-- Transfer oracle that always succeeds. -/
def tfSuccess : String → TransferResult := fun _ => .success

/-- Transfer oracle that always raises `NotFound`. -/
def tfNotFound : String → TransferResult := fun _ => .notFound

/-- Constant write clock. -/
def wtConst : Nat → Int := fun _ => 100

/-- Empty filesystem. -/
def fs0 : FS := ⟨[], []⟩

/-- Fresh run state. -/
def st0 : DlState := ⟨fs0, 0, 0⟩

/-- A poster request with a present reference and timestamp. -/
def reqPoster : AssetReq := ⟨some "/library/metadata/1/thumb", "poster.jpg", "/media/Movie", some 120⟩

/-- A request whose reference is absent. -/
def reqNone : AssetReq := ⟨none, "poster.jpg", "/media/Movie", some 5⟩

/-- A request with a reference but no source timestamp. -/
def reqNoTs : AssetReq := ⟨some "/library/metadata/1/thumb", "poster.jpg", "/media/Movie", none⟩

/-- State in which `reqPoster`'s destination already exists (mtime 100). -/
def stExisting : DlState := ⟨⟨[("/media/Movie/poster.jpg", 100)], ["/media/Movie"]⟩, 2, 7⟩

/-- State after the first run of `wReqs` from `st0` (computed by the model). -/
def wSt1 : DlState := ⟨⟨[("/media/Movie/poster.jpg", 100)], ["/media/Movie"]⟩, 1, 0⟩

/-- Request list for the idempotence witness. -/
def wReqs : List AssetReq := [reqPoster]

/-- Episode with a single media version holding one part. -/
def epSingle : Episode :=
  ⟨"/library/metadata/9/thumb", some 50, [⟨[⟨"/media/Show/Season 01/Show - S01E01.mkv"⟩]⟩]⟩

/-- Episode with two media versions, each with parts: the traversal issues
    one download per version. -/
def epTwoVersions : Episode :=
  ⟨"/library/metadata/9/thumb", some 50,
   [⟨[⟨"/media/Show/Season 01/Show - S01E01.mkv"⟩,
      ⟨"/media/Show/Season 01/Show - S01E01.part2.mkv"⟩]⟩,
    ⟨[⟨"/media/Show 4K/Season 01/Show - S01E01.mkv"⟩]⟩]⟩

/-- Episode used by the path-resolver witness. -/
def epC5 : Episode := ⟨"", none, [⟨[⟨"/media/Show/Season 01/ep.mkv"⟩]⟩]⟩

/-- Items for the traversal-driver witness. -/
def itemA : LibItem := ⟨"Alpha"⟩

/-- The item whose processing raises. -/
def itemBad : LibItem := ⟨"Bravo"⟩

/-- A later item that must still be processed. -/
def itemC : LibItem := ⟨"Charlie"⟩

/-- Reload oracle that always succeeds. -/
def w3reload : LibItem → Bool := fun _ => true

/-- Item processor raising exactly on `itemBad`. -/
def w3proc : LibItem → Except String (Nat × Nat) :=
  fun it => if it.title = "Bravo" then .error "boom" else .ok (1, 2)

/-! ## Helper lemmas about the filesystem model and `download` -/

theorem FS.files_mkdirs (fs : FS) (d : String) : (fs.mkdirs d).files = fs.files := rfl

theorem FS.mtime_mkdirs (fs : FS) (d p : String) : (fs.mkdirs d).mtime p = fs.mtime p := rfl

theorem FS.mtime_eq_of_files {fs fs' : FS} (h : fs.files = fs'.files) (p : String) :
    fs.mtime p = fs'.mtime p := by
  simp [FS.mtime, h]

theorem FS.mtime_write_self (fs : FS) (p : String) (t : Int) :
    (fs.write p t).mtime p = some t := by
  simp [FS.write, FS.mtime, List.find?]

theorem FS.mtime_write_isSome (fs : FS) (q : String) (t : Int) (p : String)
    (h : (fs.mtime p).isSome = true) : ((fs.write q t).mtime p).isSome = true := by
  by_cases hq : q = p
  · subst hq
    simp [FS.write, FS.mtime, List.find?]
  · have hqb : (q == p) = false := by simp [hq]
    simp only [FS.write, FS.mtime, List.find?, hqb] at h ⊢
    exact h

theorem download_of_not_truthy {b o : String} {force : Bool} {t : String → TransferResult}
    {w : Int} {st : DlState} {r : AssetReq} (hu : urlTruthy r.url = false) :
    download b o force t w st r = ⟨st, .noUrl, none, [], []⟩ := by
  simp [download, hu]

theorem download_skip_eq {b o : String} {force : Bool} {t : String → TransferResult}
    {w : Int} {st : DlState} {r : AssetReq} (hu : urlTruthy r.url = true)
    (hsd : shouldDownload force r.sourceTs (st.fs.mtime (finalPath o r)) = false) :
    download b o force t w st r =
      ⟨⟨(if st.fs.dirExists (absPath o r.path) then st.fs else st.fs.mkdirs (absPath o r.path)),
        st.downloaded, st.skipped + 1⟩, .skippedCurrent, some (absPath o r.path),
        (if st.fs.dirExists (absPath o r.path) then [] else [Effect.mkdirs (absPath o r.path)]),
        [.skippedCur (finalPath o r)]⟩ := by
  simp [download, hu, hsd]

theorem download_success_eq {b o : String} {force : Bool} {t : String → TransferResult}
    {w : Int} {st : DlState} {r : AssetReq} (hu : urlTruthy r.url = true)
    (hsd : shouldDownload force r.sourceTs (st.fs.mtime (finalPath o r)) = true)
    (ht : t (fullUrlOf b r) = .success) :
    download b o force t w st r =
      ⟨⟨(if st.fs.dirExists (absPath o r.path) then st.fs
          else st.fs.mkdirs (absPath o r.path)).write (finalPath o r) w,
        st.downloaded + 1, st.skipped⟩, .downloadedOk, some (absPath o r.path),
        (if st.fs.dirExists (absPath o r.path) then [] else [Effect.mkdirs (absPath o r.path)]) ++
          [.transferOp (fullUrlOf b r) (absPath o r.path) r.filename, .writeFile (finalPath o r)],
        [.downloadedMsg (finalPath o r)]⟩ := by
  simp [download, hu, hsd, ht]

theorem download_genericFail_eq {b o : String} {force : Bool} {t : String → TransferResult}
    {w : Int} {st : DlState} {r : AssetReq} (hu : urlTruthy r.url = true)
    (hsd : shouldDownload force r.sourceTs (st.fs.mtime (finalPath o r)) = true)
    (ht : t (fullUrlOf b r) = .genericFail) :
    download b o force t w st r =
      ⟨⟨(if st.fs.dirExists (absPath o r.path) then st.fs else st.fs.mkdirs (absPath o r.path)),
        st.downloaded, st.skipped⟩, .failedGeneric, some (absPath o r.path),
        (if st.fs.dirExists (absPath o r.path) then [] else [Effect.mkdirs (absPath o r.path)]) ++
          [.transferOp (fullUrlOf b r) (absPath o r.path) r.filename],
        [.genericFail (finalPath o r)]⟩ := by
  simp [download, hu, hsd, ht]

theorem download_notFound_eq {b o : String} {force : Bool} {t : String → TransferResult}
    {w : Int} {st : DlState} {r : AssetReq} (hu : urlTruthy r.url = true)
    (hsd : shouldDownload force r.sourceTs (st.fs.mtime (finalPath o r)) = true)
    (ht : t (fullUrlOf b r) = .notFound) :
    download b o force t w st r =
      ⟨⟨(if st.fs.dirExists (absPath o r.path) then st.fs else st.fs.mkdirs (absPath o r.path)),
        st.downloaded, st.skipped⟩, .failedNotFound, some (absPath o r.path),
        (if st.fs.dirExists (absPath o r.path) then [] else [Effect.mkdirs (absPath o r.path)]) ++
          [.transferOp (fullUrlOf b r) (absPath o r.path) r.filename],
        [.notFound r.filename]⟩ := by
  simp [download, hu, hsd, ht]

theorem download_err_eq {b o : String} {force : Bool} {t : String → TransferResult}
    {w : Int} {st : DlState} {r : AssetReq} {e : String} (hu : urlTruthy r.url = true)
    (hsd : shouldDownload force r.sourceTs (st.fs.mtime (finalPath o r)) = true)
    (ht : t (fullUrlOf b r) = .err e) :
    download b o force t w st r =
      ⟨⟨(if st.fs.dirExists (absPath o r.path) then st.fs else st.fs.mkdirs (absPath o r.path)),
        st.downloaded, st.skipped⟩, .failedErr, some (absPath o r.path),
        (if st.fs.dirExists (absPath o r.path) then [] else [Effect.mkdirs (absPath o r.path)]) ++
          [.transferOp (fullUrlOf b r) (absPath o r.path) r.filename],
        [.errMsg e]⟩ := by
  simp [download, hu, hsd, ht]

theorem download_absDir {b o : String} {force : Bool} {t : String → TransferResult}
    {w : Int} {st : DlState} {r : AssetReq} (hu : urlTruthy r.url = true) :
    (download b o force t w st r).absDir = some (absPath o r.path) := by
  simp only [download, hu, if_true]
  split
  · cases t (fullUrlOf b r) <;> rfl
  · rfl

/-! ## Helper lemmas for the path resolver, the thumbnail loop, the
    traversal driver and the idempotence argument -/

theorem showMediaLoop_eq_firstPartIn (season : Bool) (ms : List Media) :
    showMediaLoop season ms = (firstPartIn ms).map
      (fun p => if season then dirname p.file else dirname (dirname p.file)) := by
  induction ms with
  | nil => rfl
  | cons m rest ih =>
    cases hp : m.parts with
    | nil => simp [showMediaLoop, showPartsLoop, firstPartIn, hp, ih]
    | cons p ps => simp [showMediaLoop, showPartsLoop, firstPartIn, hp]

theorem firstPartIn_none (ms : List Media) (h : ∀ m ∈ ms, m.parts = []) :
    firstPartIn ms = none := by
  induction ms with
  | nil => rfl
  | cons m rest ih =>
    have hm := h m (by simp)
    simp only [firstPartIn, hm]
    exact ih (fun m' hm' => h m' (by simp [hm']))

theorem showEpisodeLoop_of_first (season : Bool) (pre : List Episode) (e : Episode)
    (post : List Episode) (p : Part)
    (hpre : ∀ e' ∈ pre, ∀ m ∈ e'.media, m.parts = [])
    (he : firstPartIn e.media = some p) :
    showEpisodeLoop season (pre ++ e :: post) =
      some (if season then dirname p.file else dirname (dirname p.file)) := by
  induction pre with
  | nil =>
    have h1 : showMediaLoop season e.media =
        some (if season then dirname p.file else dirname (dirname p.file)) := by
      rw [showMediaLoop_eq_firstPartIn, he]
      rfl
    simp [showEpisodeLoop, h1]
  | cons e' pre' ih =>
    have h1 : showMediaLoop season e'.media = none := by
      rw [showMediaLoop_eq_firstPartIn, firstPartIn_none _ (hpre e' (by simp))]
      rfl
    simp only [List.cons_append, showEpisodeLoop, h1]
    exact ih (fun x hx => hpre x (by simp [hx]))

theorem showEpisodeLoop_none (season : Bool) (es : List Episode)
    (h : ∀ e ∈ es, ∀ m ∈ e.media, m.parts = []) :
    showEpisodeLoop season es = none := by
  induction es with
  | nil => rfl
  | cons e rest ih =>
    have h1 : showMediaLoop season e.media = none := by
      rw [showMediaLoop_eq_firstPartIn, firstPartIn_none _ (h e (by simp))]
      rfl
    simp only [showEpisodeLoop, h1]
    exact ih (fun x hx => h x (by simp [hx]))

theorem getPath_show_eq (im : List Media) (es : List Episode) (season : Bool) :
    getPath "show" im es season = showEpisodeLoop season es := rfl

theorem episodeThumbMediaLoop_eq_filterMap (thumb : String) (ts : Option Int)
    (ms : List Media) :
    episodeThumbMediaLoop thumb ts ms =
      ms.filterMap (fun m => m.parts.head?.map
        (fun p => ⟨some thumb, thumbName p.file, dirname p.file, ts⟩)) := by
  induction ms with
  | nil => rfl
  | cons m rest ih =>
    cases hp : m.parts with
    | nil => simp [episodeThumbMediaLoop, hp, ih]
    | cons p ps => simp [episodeThumbMediaLoop, hp, ih]

theorem runItems_append (reload : LibItem → Bool) (proc : LibItem → Except String (Nat × Nat))
    (xs ys : List LibItem) :
    runItems reload proc (xs ++ ys) =
      ((runItems reload proc xs).1 + (runItems reload proc ys).1,
       (runItems reload proc xs).2.1 + (runItems reload proc ys).2.1,
       (runItems reload proc xs).2.2 ++ (runItems reload proc ys).2.2) := by
  induction xs with
  | nil => simp [runItems]
  | cons it rest ih =>
    simp only [List.cons_append, runItems, List.append_eq]
    rw [ih]
    by_cases h : reload it
    · simp only [h, if_true]
      cases proc it with
      | ok ds => simp [Nat.add_assoc]
      | error e => simp
    · simp [h]

theorem sd_false_isSome {force : Bool} {ts mo : Option Int}
    (h : shouldDownload force ts mo = false) : mo.isSome = true := by
  cases mo with
  | none => simp [shouldDownload] at h
  | some m => rfl

theorem download_preserves_isSome (b o : String) (force : Bool)
    (t : String → TransferResult) (w : Int) (st : DlState) (r : AssetReq) (p : String)
    (h : (st.fs.mtime p).isSome = true) :
    ((download b o force t w st r).state.fs.mtime p).isSome = true := by
  cases hu : urlTruthy r.url with
  | false =>
    rw [download_of_not_truthy hu]
    exact h
  | true =>
    cases hsd : shouldDownload force r.sourceTs (st.fs.mtime (finalPath o r)) with
    | false =>
      rw [download_skip_eq hu hsd]
      dsimp only
      split <;> exact h
    | true =>
      cases ht : t (fullUrlOf b r) with
      | success =>
        rw [download_success_eq hu hsd ht]
        dsimp only
        apply FS.mtime_write_isSome
        split <;> exact h
      | genericFail =>
        rw [download_genericFail_eq hu hsd ht]
        dsimp only
        split <;> exact h
      | notFound =>
        rw [download_notFound_eq hu hsd ht]
        dsimp only
        split <;> exact h
      | err e =>
        rw [download_err_eq hu hsd ht]
        dsimp only
        split <;> exact h

theorem runAssets_preserves_isSome (b o : String) (force : Bool)
    (t : String → TransferResult) (wt : Nat → Int) (reqs : List AssetReq) :
    ∀ (st : DlState) (p : String), (st.fs.mtime p).isSome = true →
      ((runAssets b o force t wt st reqs).1.fs.mtime p).isSome = true := by
  induction reqs with
  | nil =>
    intro st p h
    simpa [runAssets] using h
  | cons r rest ih =>
    intro st p h
    simp only [runAssets]
    exact ih _ p (download_preserves_isSome b o force t (wt st.downloaded) st r p h)

theorem download_establishes (b o : String) (force : Bool) (t : String → TransferResult)
    (w : Int) (st : DlState) (r : AssetReq)
    (hu : urlTruthy r.url = true) (htr : ∀ u, t u = .success) :
    ((download b o force t w st r).state.fs.mtime (finalPath o r)).isSome = true := by
  cases hsd : shouldDownload force r.sourceTs (st.fs.mtime (finalPath o r)) with
  | false =>
    have hex := sd_false_isSome hsd
    rw [download_skip_eq hu hsd]
    dsimp only
    split <;> exact hex
  | true =>
    rw [download_success_eq hu hsd (htr _)]
    dsimp only
    rw [FS.mtime_write_self]
    rfl

theorem runAssets_establishes (b o : String) (force : Bool) (t : String → TransferResult)
    (wt : Nat → Int) (htr : ∀ u, t u = .success) (reqs : List AssetReq) :
    ∀ (st : DlState) (r : AssetReq), r ∈ reqs → urlTruthy r.url = true →
      ((runAssets b o force t wt st reqs).1.fs.mtime (finalPath o r)).isSome = true := by
  induction reqs with
  | nil =>
    intro st r hr
    simp at hr
  | cons q rest ih =>
    intro st r hr hu
    simp only [runAssets]
    rcases List.mem_cons.mp hr with rfl | hr'
    · exact runAssets_preserves_isSome b o force t wt rest _ _
        (download_establishes b o force t (wt st.downloaded) st r hu htr)
    · exact ih _ r hr' hu

theorem download_skip_proj (b o : String) (t : String → TransferResult) (w : Int)
    (st : DlState) (r : AssetReq) (hu : urlTruthy r.url = true)
    (hsd : shouldDownload false r.sourceTs (st.fs.mtime (finalPath o r)) = false) :
    (download b o false t w st r).state.fs.files = st.fs.files ∧
    (download b o false t w st r).state.downloaded = st.downloaded ∧
    (download b o false t w st r).state.skipped = st.skipped + 1 ∧
    (download b o false t w st r).outcome = .skippedCurrent := by
  rw [download_skip_eq hu hsd]
  refine ⟨?_, rfl, rfl, rfl⟩
  dsimp only
  split <;> rfl

theorem runAssets_all_skip (b o : String) (t : String → TransferResult) (wt : Nat → Int)
    (reqs : List AssetReq) :
    ∀ (st : DlState),
      (∀ r ∈ reqs, urlTruthy r.url = true →
        ∃ m, st.fs.mtime (finalPath o r) = some m ∧
          ∀ ts, r.sourceTs = some ts → ts ≤ m + 60) →
      (runAssets b o false t wt st reqs).1.downloaded = st.downloaded ∧
      (runAssets b o false t wt st reqs).1.skipped =
        st.skipped + (reqs.filter (fun r => urlTruthy r.url)).length ∧
      (runAssets b o false t wt st reqs).1.fs.files = st.fs.files ∧
      (runAssets b o false t wt st reqs).2 =
        reqs.map (fun r => if urlTruthy r.url then Outcome.skippedCurrent else Outcome.noUrl) := by
  induction reqs with
  | nil =>
    intro st h
    simp [runAssets]
  | cons r rest ih =>
    intro st h
    have hrest0 : ∀ r' ∈ rest, urlTruthy r'.url = true →
        ∃ m, st.fs.mtime (finalPath o r') = some m ∧
          ∀ ts, r'.sourceTs = some ts → ts ≤ m + 60 :=
      fun r' hr' => h r' (List.mem_cons_of_mem _ hr')
    cases hu : urlTruthy r.url with
    | false =>
      have hd := @download_of_not_truthy b o false t (wt st.downloaded) st r hu
      have hr := ih st hrest0
      simp only [runAssets, hd]
      refine ⟨hr.1, ?_, hr.2.2.1, ?_⟩
      · rw [hr.2.1]
        simp [List.filter, hu]
      · rw [hr.2.2.2]
        simp [hu]
    | true =>
      obtain ⟨m, hm, hts⟩ := h r (by simp) hu
      have hsd : shouldDownload false r.sourceTs (st.fs.mtime (finalPath o r)) = false := by
        rw [hm]
        cases hcs : r.sourceTs with
        | none => rfl
        | some ts =>
          have hle := hts ts hcs
          simp [shouldDownload]
          omega
      have hproj := download_skip_proj b o t (wt st.downloaded) st r hu hsd
      have hmt : ∀ p, (download b o false t (wt st.downloaded) st r).state.fs.mtime p =
          st.fs.mtime p := fun p => FS.mtime_eq_of_files hproj.1 p
      have hrest := ih (download b o false t (wt st.downloaded) st r).state
        (fun r' hr' hu' => by
          obtain ⟨m', hm', hts'⟩ := hrest0 r' hr' hu'
          exact ⟨m', (hmt _).trans hm', hts'⟩)
      simp only [runAssets]
      refine ⟨?_, ?_, ?_, ?_⟩
      · rw [hrest.1, hproj.2.1]
      · rw [hrest.2.1, hproj.2.2.1]
        simp only [List.filter, hu]
        simp [Nat.add_assoc, Nat.add_comm 1]
      · rw [hrest.2.2.1, hproj.1]
      · rw [hrest.2.2.2]
        simp [hu, hproj.2.2.2]

/-! ## Claim theorems -/

/-- Claim C2: for an existing destination file with the force flag unset and
    a present source timestamp, the staleness decision is true iff the
    source timestamp exceeds the destination's mtime plus 60 seconds; equal
    to mtime + 60 it is false, beyond mtime + 61 it is true. -/
theorem shouldDownload_timestamp_boundary :
    ∀ (m ts : Int),
      (shouldDownload false (some ts) (some m) = true ↔ ts > m + 60) ∧
      (ts = m + 60 → shouldDownload false (some ts) (some m) = false) ∧
      (ts > m + 61 → shouldDownload false (some ts) (some m) = true) := by
  intro m ts
  refine ⟨?_, ?_, ?_⟩ <;> simp [shouldDownload] <;> omega

/-- Witness for C2 at mtime 0: timestamp 60 is current, timestamp 62 is
    stale. -/
theorem shouldDownload_timestamp_boundary_w :
    shouldDownload false (some 60) (some 0) = false ∧
    shouldDownload false (some 62) (some 0) = true :=
  ⟨(shouldDownload_timestamp_boundary 0 60).2.1 rfl,
   (shouldDownload_timestamp_boundary 0 62).2.2 (by decide)⟩

/-- Claim C4: a sync attempt whose asset reference is empty or absent
    performs no filesystem or network operation and leaves both counters
    (and the whole state) unchanged. -/
theorem download_noop_on_empty_url :
    ∀ (b o : String) (force : Bool) (t : String → TransferResult) (w : Int)
      (st : DlState) (r : AssetReq), urlTruthy r.url = false →
      download b o force t w st r = ⟨st, .noUrl, none, [], []⟩ := by
  intro b o force t w st r hu
  exact download_of_not_truthy hu

/-- Witness for C4: an absent reference on a populated state. -/
theorem download_noop_on_empty_url_w :
    urlTruthy reqNone.url = false ∧
    download "http://plex" "/" false tfSuccess 9 stExisting reqNone =
      ⟨stExisting, .noUrl, none, [], []⟩ :=
  ⟨by decide,
   download_noop_on_empty_url "http://plex" "/" false tfSuccess 9 stExisting reqNone (by decide)⟩

/-- Claim C8: destination exists, force unset, source timestamp absent:
    the decision is false, the file is treated as current, the skipped
    counter is incremented and no transfer is invoked. -/
theorem download_existing_no_timestamp_skips :
    ∀ (b o : String) (t : String → TransferResult) (w : Int) (st : DlState)
      (r : AssetReq) (m : Int),
      urlTruthy r.url = true → r.sourceTs = none →
      st.fs.mtime (finalPath o r) = some m →
      (download b o false t w st r).outcome = .skippedCurrent ∧
      (download b o false t w st r).state.skipped = st.skipped + 1 ∧
      (download b o false t w st r).state.downloaded = st.downloaded ∧
      (download b o false t w st r).state.fs.files = st.fs.files ∧
      ∀ e ∈ (download b o false t w st r).effects, e.isTransfer = false := by
  intro b o t w st r m hu hts hm
  have hsd : shouldDownload false r.sourceTs (st.fs.mtime (finalPath o r)) = false := by
    rw [hts, hm]; rfl
  rw [download_skip_eq hu hsd]
  refine ⟨rfl, rfl, rfl, ?_, ?_⟩
  · split <;> rfl
  · intro e he
    split at he
    · simp at he
    · simp at he
      subst he
      rfl

/-- Witness for C8: an existing poster with no upstream timestamp is
    skipped. -/
theorem download_existing_no_timestamp_skips_w :
    urlTruthy reqNoTs.url = true ∧ reqNoTs.sourceTs = none ∧
    stExisting.fs.mtime (finalPath "/" reqNoTs) = some 100 ∧
    (download "http://plex" "/" false tfSuccess 9 stExisting reqNoTs).outcome =
      .skippedCurrent ∧
    (download "http://plex" "/" false tfSuccess 9 stExisting reqNoTs).state.skipped =
      stExisting.skipped + 1 :=
  ⟨by decide, rfl, by decide,
   (download_existing_no_timestamp_skips "http://plex" "/" tfSuccess 9 stExisting reqNoTs 100
      (by decide) rfl (by decide)).1,
   (download_existing_no_timestamp_skips "http://plex" "/" tfSuccess 9 stExisting reqNoTs 100
      (by decide) rfl (by decide)).2.1⟩

/-- Claim C7: every failing transfer attempt — remote not-found (logged
    with its distinct diagnostic) or any other failure (logged
    generically) — changes neither counter, and the run continues with the
    next asset. -/
theorem download_failure_keeps_counters :
    ∀ (b o : String) (force : Bool) (t : String → TransferResult) (w : Int)
      (wt : Nat → Int) (st : DlState) (r : AssetReq) (rest : List AssetReq),
      urlTruthy r.url = true →
      shouldDownload force r.sourceTs (st.fs.mtime (finalPath o r)) = true →
      (t (fullUrlOf b r) = .notFound ∨ t (fullUrlOf b r) = .genericFail ∨
        ∃ e, t (fullUrlOf b r) = .err e) →
      (download b o force t w st r).state.downloaded = st.downloaded ∧
      (download b o force t w st r).state.skipped = st.skipped ∧
      (t (fullUrlOf b r) = .notFound →
        (download b o force t w st r).log = [.notFound r.filename]) ∧
      (t (fullUrlOf b r) = .genericFail →
        (download b o force t w st r).log = [.genericFail (finalPath o r)]) ∧
      (∀ f p, LogMsg.notFound f ≠ LogMsg.genericFail p) ∧
      (runAssets b o force t wt st (r :: rest)).2 =
        (download b o force t (wt st.downloaded) st r).outcome ::
          (runAssets b o force t wt (download b o force t (wt st.downloaded) st r).state rest).2 := by
  intro b o force t w wt st r rest hu hsd hfail
  have hinj : ∀ f p, LogMsg.notFound f ≠ LogMsg.genericFail p := by
    intro f p h
    exact LogMsg.noConfusion h
  have hrun : (runAssets b o force t wt st (r :: rest)).2 =
      (download b o force t (wt st.downloaded) st r).outcome ::
        (runAssets b o force t wt (download b o force t (wt st.downloaded) st r).state rest).2 := by
    simp [runAssets]
  rcases hfail with ht | ht | ⟨e, ht⟩
  · rw [download_notFound_eq hu hsd ht]
    exact ⟨rfl, rfl, fun _ => rfl, fun hg => absurd (ht.symm.trans hg) (by simp), hinj, hrun⟩
  · rw [download_genericFail_eq hu hsd ht]
    exact ⟨rfl, rfl, fun hn => absurd (ht.symm.trans hn) (by simp), fun _ => rfl, hinj, hrun⟩
  · rw [download_err_eq hu hsd ht]
    exact ⟨rfl, rfl, fun hn => absurd (ht.symm.trans hn) (by simp),
      fun hg => absurd (ht.symm.trans hg) (by simp), hinj, hrun⟩

/-- Witness for C7: a forced attempt on an existing file with a not-found
    remote keeps both counters. -/
theorem download_failure_keeps_counters_w :
    (download "http://plex" "/" true tfNotFound 9 stExisting reqPoster).state.downloaded =
      stExisting.downloaded ∧
    (download "http://plex" "/" true tfNotFound 9 stExisting reqPoster).state.skipped =
      stExisting.skipped :=
  ⟨(download_failure_keeps_counters "http://plex" "/" true tfNotFound 9 wtConst stExisting
      reqPoster [] (by decide) (by decide) (Or.inl rfl)).1,
   (download_failure_keeps_counters "http://plex" "/" true tfNotFound 9 wtConst stExisting
      reqPoster [] (by decide) (by decide) (Or.inl rfl)).2.1⟩

/-- Claim C6: with an output-path override configured (anything but the
    literal root), the effective destination directory joins the override
    with the source directory stripped of leading separators; concretely
    `/backup` and `/media/Show/Season 01` give
    `/backup/media/Show/Season 01`. -/
theorem download_output_override_join :
    ∀ (b out : String) (force : Bool) (t : String → TransferResult) (w : Int)
      (st : DlState) (r : AssetReq),
      out ≠ "/" → urlTruthy r.url = true →
      (download b out force t w st r).absDir =
        some (joinPath out (lstripSlash r.path)) ∧
      absPath "/backup" "/media/Show/Season 01" = "/backup/media/Show/Season 01" := by
  intro b out force t w st r hout hu
  constructor
  · rw [download_absDir hu]
    simp [absPath, hout]
  · decide

/-- Witness for C6 on the spec's example values. -/
theorem download_output_override_join_w :
    (download "http://plex" "/backup" false tfSuccess 9 st0
        ⟨some "/library/metadata/1/thumb", "poster.jpg", "/media/Show/Season 01", none⟩).absDir =
      some (joinPath "/backup" (lstripSlash "/media/Show/Season 01")) :=
  (download_output_override_join "http://plex" "/backup" false tfSuccess 9 st0
      ⟨some "/library/metadata/1/thumb", "poster.jpg", "/media/Show/Season 01", none⟩
      (by decide) (by decide)).1

/-- Claim C10: the no-override mode is selected exactly when the configured
    output path is the literal root string: `/` (also the option default)
    leaves the source directory untouched, while any other value — an
    empty string or a relative path included — strips leading separators
    and joins under the configured path. -/
theorem absPath_root_iff_no_override :
    (∀ p, absPath defaultOutputPath p = p) ∧
    (∀ p, absPath "/" p = p) ∧
    (∀ out p, out ≠ "/" → absPath out p = joinPath out (lstripSlash p)) ∧
    absPath "" "/media/Show/Season 01" = "media/Show/Season 01" ∧
    absPath "backup" "/media/Show/Season 01" = "backup/media/Show/Season 01" := by
  refine ⟨fun p => rfl, fun p => rfl, fun out p h => by simp [absPath, h], by decide, by decide⟩

/-- Witness for C10: the empty-string override is not the root, and mirrors
    relative to it. -/
theorem absPath_root_iff_no_override_w :
    ("" : String) ≠ "/" ∧ absPath "" "/a/b" = joinPath "" (lstripSlash "/a/b") :=
  ⟨by decide, absPath_root_iff_no_override.2.2.1 "" "/a/b" (by decide)⟩

/-- Claim C5: for a show, the resolver returns the grandparent directory of
    the first media part of the first episode that has one (show level) and
    its parent directory (season level); with no episodes or no media parts
    it returns none. -/
theorem getPath_show_and_season :
    (∀ (pre : List Episode) (e : Episode) (post : List Episode) (p : Part),
      (∀ e' ∈ pre, ∀ m ∈ e'.media, m.parts = []) →
      firstEpisodePart e = some p →
      getPath "show" [] (pre ++ e :: post) false = some (dirname (dirname p.file)) ∧
      getPath "show" [] (pre ++ e :: post) true = some (dirname p.file)) ∧
    (∀ (season : Bool) (es : List Episode),
      (∀ e ∈ es, ∀ m ∈ e.media, m.parts = []) →
      getPath "show" [] es season = none) := by
  constructor
  · intro pre e post p hpre he
    constructor
    · rw [getPath_show_eq, showEpisodeLoop_of_first false pre e post p hpre he]
      rfl
    · rw [getPath_show_eq, showEpisodeLoop_of_first true pre e post p hpre he]
      rfl
  · intro season es h
    rw [getPath_show_eq, showEpisodeLoop_none season es h]

/-- Witness for C5 on the spec's example part path. -/
theorem getPath_show_and_season_w :
    getPath "show" [] [epC5] false = some "/media/Show" ∧
    getPath "show" [] [epC5] true = some "/media/Show/Season 01" := by
  have h := getPath_show_and_season.1 [] epC5 [] ⟨"/media/Show/Season 01/ep.mkv"⟩
    (by simp) (by decide)
  exact ⟨h.1.trans (by decide), h.2.trans (by decide)⟩

/-- Claim C1, counterexample: an episode with two media versions (each with
    a part) and a non-empty thumbnail reference triggers two downloads, not
    exactly one. -/
theorem episode_thumb_multi_version_cex :
    epTwoVersions.thumb ≠ "" ∧
    (episodeThumbCalls "all" epTwoVersions none).length = 2 := by
  constructor
  · decide
  · decide

/-- Claim C1 as amended: with the posters filter active and a non-empty
    thumbnail reference, the traversal issues one download per media
    version that has at least one part, each using that version's first
    part — filename is the part's video filename without extension plus
    `-thumb.jpg` and the directory is the part's directory; the remaining
    parts of each version trigger nothing. -/
theorem episodeThumbCalls_once_per_version :
    ∀ (assets : String) (ep : Episode) (seasonTs : Option Int),
      (assets = "all" ∨ assets = "posters") → ep.thumb ≠ "" →
      episodeThumbCalls assets ep seasonTs =
        ep.media.filterMap (fun m => m.parts.head?.map
          (fun p => ⟨some ep.thumb, thumbName p.file, dirname p.file,
            episodeTs ep seasonTs⟩)) := by
  intro assets ep ts ha ht
  unfold episodeThumbCalls
  rw [if_pos ⟨ha, ht⟩]
  exact episodeThumbMediaLoop_eq_filterMap ep.thumb (episodeTs ep ts) ep.media

/-- Witness for C1: a single-version episode yields exactly the one call
    with the spec's filename and directory. -/
theorem episodeThumbCalls_once_per_version_w :
    epSingle.thumb ≠ "" ∧
    episodeThumbCalls "all" epSingle none =
      [⟨some "/library/metadata/9/thumb", "Show - S01E01-thumb.jpg",
        "/media/Show/Season 01", some 50⟩] := by
  refine ⟨by decide, ?_⟩
  rw [episodeThumbCalls_once_per_version "all" epSingle none (Or.inl rfl) (by decide)]
  decide

/-- Claim C3: an error raised while processing one top-level item is caught
    at the item boundary and logged with that item's title; all items
    before and after it are still processed, the run completes, and the
    final counters are the sums over the successfully processed items. -/
theorem runItems_isolates_failure :
    ∀ (reload : LibItem → Bool) (proc : LibItem → Except String (Nat × Nat))
      (xs ys : List LibItem) (bad : LibItem) (e : String),
      reload bad = true → proc bad = .error e →
      runItems reload proc (xs ++ bad :: ys) =
        ((runItems reload proc xs).1 + (runItems reload proc ys).1,
         (runItems reload proc xs).2.1 + (runItems reload proc ys).2.1,
         (runItems reload proc xs).2.2 ++
           LogMsg.itemErr bad.title e :: (runItems reload proc ys).2.2) := by
  intro reload proc xs ys bad e hr hp
  rw [runItems_append]
  have hbad : runItems reload proc (bad :: ys) =
      ((runItems reload proc ys).1, (runItems reload proc ys).2.1,
        LogMsg.itemErr bad.title e :: (runItems reload proc ys).2.2) := by
    simp [runItems, hr, hp]
  rw [hbad]

/-- Witness for C3: items Alpha, Bravo (raises), Charlie — both successes
    counted, Bravo logged with its title. -/
theorem runItems_isolates_failure_w :
    runItems w3reload w3proc [itemA, itemBad, itemC] =
      (2, 4, [.itemErr "Bravo" "boom"]) := by
  have h := runItems_isolates_failure w3reload w3proc [itemA] [itemC] itemBad "boom" rfl rfl
  exact h.trans (by decide)

/-- Claim C9: with no upstream change between two runs (same requests, all
    first-run transfers succeeding, every source timestamp at most 60
    seconds past the corresponding file's post-first-run mtime) and the
    force flag unset, the second run downloads nothing and skips every
    asset that has a reference. -/
theorem sync_twice_idempotent :
    ∀ (b o : String) (t : String → TransferResult) (wt1 wt2 : Nat → Int)
      (start : DlState) (reqs : List AssetReq) (st1 : DlState),
      (∀ u, t u = .success) →
      st1 = (runAssets b o false t wt1 start reqs).1 →
      (∀ r ∈ reqs, urlTruthy r.url = true → ∀ ts m, r.sourceTs = some ts →
        st1.fs.mtime (finalPath o r) = some m → ts ≤ m + 60) →
      (runAssets b o false t wt2 st1 reqs).1.downloaded = st1.downloaded ∧
      (runAssets b o false t wt2 st1 reqs).1.skipped =
        st1.skipped + (reqs.filter (fun r => urlTruthy r.url)).length ∧
      (runAssets b o false t wt2 st1 reqs).2 =
        reqs.map (fun r => if urlTruthy r.url then Outcome.skippedCurrent else Outcome.noUrl) := by
  intro b o t wt1 wt2 start reqs st1 htr hst1 hts
  have hall : ∀ r ∈ reqs, urlTruthy r.url = true →
      ∃ m, st1.fs.mtime (finalPath o r) = some m ∧
        ∀ ts, r.sourceTs = some ts → ts ≤ m + 60 := by
    intro r hr hu
    have hex : (st1.fs.mtime (finalPath o r)).isSome = true := by
      rw [hst1]
      exact runAssets_establishes b o false t wt1 htr reqs start r hr hu
    obtain ⟨m, hm⟩ := Option.isSome_iff_exists.mp hex
    exact ⟨m, hm, fun ts h' => hts r hr hu ts m h' hm⟩
  have h := runAssets_all_skip b o t wt2 reqs st1 hall
  exact ⟨h.1, h.2.1, h.2.2.2⟩

/-- Witness for C9: one poster synced from an empty filesystem, then synced
    again — the second run only skips. -/
theorem sync_twice_idempotent_w :
    (runAssets "http://plex" "/" false tfSuccess wtConst wSt1 wReqs).1.downloaded =
      wSt1.downloaded ∧
    (runAssets "http://plex" "/" false tfSuccess wtConst wSt1 wReqs).1.skipped =
      wSt1.skipped + (wReqs.filter (fun r => urlTruthy r.url)).length ∧
    (runAssets "http://plex" "/" false tfSuccess wtConst wSt1 wReqs).2 =
      wReqs.map (fun r => if urlTruthy r.url then Outcome.skippedCurrent else Outcome.noUrl) := by
  refine sync_twice_idempotent "http://plex" "/" tfSuccess wtConst wtConst st0 wReqs wSt1
    (fun u => rfl) (by decide) ?_
  intro r hr hu ts m htsr hmr
  have hre : r = reqPoster := by
    simpa [wReqs] using hr
  subst hre
  have h2 : wSt1.fs.mtime (finalPath "/" reqPoster) = some 100 := by decide
  rw [h2] at hmr
  have h1 : reqPoster.sourceTs = some 120 := rfl
  rw [h1] at htsr
  simp only [Option.some.injEq] at htsr hmr
  omega

end PPE
